import Mathlib

/-!
Verification development for the `commit-buddy` git automation service
(`server.py`): a shallow embedding of its redaction engine, diff provider,
message-generation entry point and commit/push orchestrator, together with
theorems settling the specification's claims.

Conventions of the embedding:
* Text is modelled as `String` / `List Char` (Python `str`, code points).
* The five compiled regular expressions of `SECRET_PATTERNS` are embedded as
  sequences of character-class items with greedy, backtracking repetition
  (exactly the semantics Python's `re` engine exhibits on these patterns:
  leftmost match, quantifiers try the longest repetition count first,
  `re.sub` replaces non-overlapping matches and resumes after each match).
* Subprocess calls (`git ...`), the OpenAI completion call, and `print` are
  effects: the orchestrator runs in a state monad accumulating an event
  trace, with the outcome of each external command supplied by a `GitEnv`
  oracle.  A Python `raise RuntimeError(msg)` is `Except.error msg`.
-/

/-! ## Character helpers -/

/-- Python `\s` for ASCII text: space, tab, newline, carriage return,
vertical tab, form feed. -/
def wsCls (c : Char) : Bool :=
  c == ' ' || c == '\t' || c == '\n' || c == '\r' || c == '\x0b' || c == '\x0c'

/-- Lower-case an ASCII character (used to embed the `(?i)` flag that every
pattern in `SECRET_PATTERNS` carries). -/
def lowerChar (c : Char) : Char :=
  if 65 ≤ c.toNat ∧ c.toNat ≤ 90 then Char.ofNat (c.toNat + 32) else c

/-! ## A tiny regex engine

Each of the five patterns in `SECRET_PATTERNS` is a concatenation of
character-class repetitions: case-insensitive literals (`a` = class
`{a,A}` repeated exactly once), optional separators (`[_-]?`),
whitespace runs (`\s*`, `\s+`) and value classes with a minimum length
(`[A-Za-z0-9/+=]{20,}`, `[^ \n]+`, ...).  `RItem` is one such repetition. -/

structure RItem where
  cls : Char → Bool
  lo : Nat
  hi : Option Nat

/-- Length of the maximal prefix of `s` whose characters satisfy `p`. -/
def runLen (p : Char → Bool) : List Char → Nat
  | [] => 0
  | c :: cs => if p c then runLen p cs + 1 else 0

/-- Greedy backtracking over a repetition count: try to consume `k` characters
first, then `k-1`, ..., down to `lo`; `f` matches the rest of the pattern on
the remaining input and returns how many further characters it consumed.
This is how a backtracking engine treats `C{lo,hi}` followed by `f`. -/
def tryDown (f : List Char → Option Nat) (s : List Char) (lo : Nat) : Nat → Option Nat
  | 0 => if lo = 0 then f s else none
  | k + 1 =>
    if k + 1 < lo then none
    else
      match f (s.drop (k + 1)) with
      | some n => some (k + 1 + n)
      | none => tryDown f s lo k

/-- Match a whole item sequence at the start of `s`, returning the number of
characters consumed by the (backtracking-greedy, i.e. Python `re`) match. -/
def matchItems : List RItem → List Char → Option Nat
  | [], _ => some 0
  | it :: rest, s =>
    let r := runLen it.cls s
    let m := match it.hi with
      | none => r
      | some h => min r h
    tryDown (matchItems rest) s it.lo m

/-- Does the pattern match anywhere in `s` (at any start position)? -/
def hasMatch (r : List RItem) : List Char → Bool
  | [] => (matchItems r []).isSome
  | c :: cs => (matchItems r (c :: cs)).isSome || hasMatch r cs

/-- Worker for `subAll`: scan left to right; `skip` counts characters that
belong to an already-replaced match and are still to be dropped.  At each
position outside a match, try the pattern; on a match of `n+1` characters emit
the replacement and drop the match (leftmost, non-overlapping — exactly
`re.sub`).  A zero-width match is treated as no match; the five embedded
patterns all require at least one character, so this case never fires. -/
def subAllGo (r : List RItem) (rep : List Char) : Nat → List Char → List Char
  | _ + 1, [] => []
  | skip + 1, _ :: cs => subAllGo r rep skip cs
  | 0, [] => []
  | 0, c :: cs =>
    match matchItems r (c :: cs) with
    | some (n + 1) => rep ++ subAllGo r rep n cs
    | _ => c :: subAllGo r rep 0 cs

/-- `pat.sub(replacement, s)`: replace every non-overlapping leftmost match. -/
def subAll (r : List RItem) (rep : List Char) (s : List Char) : List Char :=
  subAllGo r rep 0 s

/-! ## The five `SECRET_PATTERNS` of `server.py` -/

/-- A case-insensitive literal, one item per character of `s`
(`s` is given lower-case). -/
def litCI (s : String) : List RItem :=
  s.data.map (fun c => ⟨fun d => lowerChar d == c, 1, some 1⟩)

def sepOpt : RItem := ⟨fun d => d == '_' || d == '-', 0, some 1⟩
def wsStar : RItem := ⟨wsCls, 0, none⟩
def wsPlus : RItem := ⟨wsCls, 1, none⟩
def eqItem : RItem := ⟨fun d => d == '=', 1, some 1⟩
def colonItem : RItem := ⟨fun d => d == ':', 1, some 1⟩

/-- `[A-Za-z0-9/+=]` — note that `=` is in the class. -/
def awsValCls (c : Char) : Bool :=
  c.isAlpha || c.isDigit || c == '/' || c == '+' || c == '='

/-- `[A-Za-z0-9_-]` -/
def apiValCls (c : Char) : Bool :=
  c.isAlpha || c.isDigit || c == '_' || c == '-'

/-- `[A-Za-z0-9._-]` -/
def bearerValCls (c : Char) : Bool :=
  c.isAlpha || c.isDigit || c == '.' || c == '_' || c == '-'

/-- `[^ \n]` -/
def nonSpNl (c : Char) : Bool := !(c == ' ' || c == '\n')

/-- `(?i)aws[_-]?secret[_-]?access[_-]?key\s*=\s*([A-Za-z0-9/+=]{20,})` -/
def patAwsSecret : List RItem :=
  litCI "aws" ++ [sepOpt] ++ litCI "secret" ++ [sepOpt] ++ litCI "access" ++
    [sepOpt] ++ litCI "key" ++ [wsStar, eqItem, wsStar, ⟨awsValCls, 20, none⟩]

/-- `(?i)api[_-]?key\s*=\s*([A-Za-z0-9_-]{16,})` -/
def patApiKey : List RItem :=
  litCI "api" ++ [sepOpt] ++ litCI "key" ++ [wsStar, eqItem, wsStar, ⟨apiValCls, 16, none⟩]

/-- `(?i)authorization:\s*Bearer\s+[A-Za-z0-9._-]{16,}` -/
def patBearer : List RItem :=
  litCI "authorization" ++ [colonItem, wsStar] ++ litCI "bearer" ++
    [wsPlus, ⟨bearerValCls, 16, none⟩]

/-- `(?i)password\s*=\s*[^ \n]+` -/
def patPassword : List RItem :=
  litCI "password" ++ [wsStar, eqItem, wsStar, ⟨nonSpNl, 1, none⟩]

/-- `(?i)secret\s*=\s*[^ \n]+` -/
def patSecret : List RItem :=
  litCI "secret" ++ [wsStar, eqItem, wsStar, ⟨nonSpNl, 1, none⟩]

/-- The ordered rule list `SECRET_PATTERNS` from `server.py`. -/
def SECRET_PATTERNS : List (List RItem × String) :=
  [(patAwsSecret, "aws_secret_access_key=***"),
   (patApiKey, "api_key=***"),
   (patBearer, "authorization: Bearer ***"),
   (patPassword, "password=***"),
   (patSecret, "secret=***")]

/-- `redact_secrets` on `List Char`: apply each rule's `sub` in order. -/
def redactList (cs : List Char) : List Char :=
  SECRET_PATTERNS.foldl (fun acc pr => subAll pr.1 pr.2.data acc) cs

/-- `redact_secrets(text)` from `server.py`. -/
def redact_secrets (s : String) : String := ⟨redactList s.data⟩

/-- Relational specification of one rule pass: `MaskedPass r rep s out`
holds when `out` is obtained from `s` by scanning left to right, copying
every character at whose position no match of `r` starts, and replacing each
found match (a segment at which `r` matches with exactly that segment's
length) by the fixed replacement `rep`.  `subAll` — and hence each rule
inside `redact_secrets` — produces such an `out` for *every* input. -/
inductive MaskedPass (r : List RItem) (rep : List Char) : List Char → List Char → Prop where
  | nil : MaskedPass r rep [] []
  | keep (c : Char) (s out : List Char) : matchItems r (c :: s) = none →
      MaskedPass r rep s out → MaskedPass r rep (c :: s) (c :: out)
  | mask (m s out : List Char) : m ≠ [] → matchItems r (m ++ s) = some m.length →
      MaskedPass r rep s out → MaskedPass r rep (m ++ s) (rep ++ out)

/-- The first item of the pattern requires at least one character (true of
all five `SECRET_PATTERNS`, which begin with a literal keyword): this rules
out zero-width matches. -/
def headLoPos (items : List RItem) : Bool :=
  match items with
  | [] => false
  | it :: _ => decide (1 ≤ it.lo)

/-! ## Python string helpers -/

/-- `str.strip()` (ASCII whitespace, which is all the program's outputs use). -/
def pyStripList (cs : List Char) : List Char :=
  ((cs.dropWhile wsCls).reverse.dropWhile wsCls).reverse

/-- `text.strip()`. -/
def pyStrip (s : String) : String := ⟨pyStripList s.data⟩

/-- Worker for `pySplitlines`. -/
def splitlinesGo : List Char → List Char → List String
  | [], acc => if acc.isEmpty then [] else [⟨acc.reverse⟩]
  | '\r' :: '\n' :: rest, acc => ⟨acc.reverse⟩ :: splitlinesGo rest []
  | '\r' :: rest, acc => ⟨acc.reverse⟩ :: splitlinesGo rest []
  | '\n' :: rest, acc => ⟨acc.reverse⟩ :: splitlinesGo rest []
  | c :: rest, acc => splitlinesGo rest (c :: acc)

/-- `str.splitlines()` (on `\n`, `\r`, `\r\n`; no trailing empty line). -/
def pySplitlines (s : String) : List String := splitlinesGo s.data []

def isSpaceTab (c : Char) : Bool := c == ' ' || c == '\t'

/-- Longest common prefix of two character lists. -/
def commonPref : List Char → List Char → List Char
  | a :: as, b :: bs => if a == b then a :: commonPref as bs else []
  | _, _ => []

/-- `textwrap.dedent(text)`: lines of only spaces/tabs are normalized to
empty; the longest common space/tab margin of the content lines is removed
from every line that carries it. -/
def pyDedent (s : String) : String :=
  let lines := (s.splitOn "\n").map fun l =>
    if l ≠ "" ∧ l.data.all isSpaceTab then "" else l
  let indents := lines.filterMap fun l =>
    if l.data.any (fun c => !isSpaceTab c) then some (l.data.takeWhile isSpaceTab) else none
  let margin := match indents with
    | [] => []
    | i :: is => is.foldl commonPref i
  let stripped := lines.map fun l =>
    if margin.isPrefixOf l.data then String.mk (l.data.drop margin.length) else l
  String.intercalate "\n" stripped

/-- `text[:n]` for a Python string slice. -/
def strTake (s : String) (n : Nat) : String := ⟨s.data.take n⟩

/-- The truncation marker appended by the diff provider:
`"\n[commit-buddy] Diff truncated for size.\n"`. -/
def truncMarker : String := "\n[commit-buddy] Diff truncated for size.\n"

/-! ## Configuration, external-world oracle, events, effect monad -/

/-- The environment-derived configuration of `server.py`
(`COMMIT_BUDDY_ALLOWED_ROOTS`, `COMMIT_BUDDY_MAX_DIFF_CHARS`,
`COMMIT_BUDDY_OPENAI_MODEL`, `COMMIT_BUDDY_TEMPERATURE`; the numeric value of
the temperature never influences control flow, so it is carried as `Int`). -/
structure BuddyConfig where
  allowedRoots : List String
  maxDiffChars : Nat
  defaultModel : String
  defaultTemperature : Int

/-- Oracle for the outcomes of external commands: for each git subcommand the
raw stdout on success (`run_git` strips it) or the stderr of a non-zero exit;
plus whether `OPENAI_API_KEY` is set and the completion service's reply. -/
structure GitEnv where
  toplevel : Except String String
  statusOut : Except String String
  headBranch : Except String String
  diffStagedOut : Except String String
  diffFullOut : Except String String
  remotesOut : Except String String
  upstreamOut : Except String String
  commitRes : Except String String
  pushRes : Except String String
  pushSetUpstreamRes : Except String String
  addRes : Except String String
  apiKeySet : Bool
  openaiReply : String

/-- Externally observable effects: a git subprocess invocation, a call to the
completion service (carrying everything that crosses the process boundary),
and a `print` to standard output. -/
inductive Event where
  | git (args : List String)
  | openaiCall (sysPrompt userPrompt mdl : String) (temp : Int)
  | printed (out : String)
deriving DecidableEq

/-- The effect monad: a computation threads the trace of emitted events and
either returns a value or raises (`RuntimeError`).  Events emitted before a
raise stay in the trace — the corresponding subprocesses really ran. -/
def CmdM (α : Type) : Type := List Event → Except String α × List Event

def CmdM.pure (a : α) : CmdM α := fun tr => (.ok a, tr)

def CmdM.bind (x : CmdM α) (f : α → CmdM β) : CmdM β := fun tr =>
  match x tr with
  | (.ok a, tr') => f a tr'
  | (.error e, tr') => (.error e, tr')

instance instMonadCmdM : Monad CmdM where
  pure := CmdM.pure
  bind := CmdM.bind

/-- Record an external effect. -/
def emit (e : Event) : CmdM Unit := fun tr => (.ok (), tr ++ [e])

/-- `raise RuntimeError(msg)`. -/
def mthrow (msg : String) : CmdM α := fun tr => (.error msg, tr)

/-- `try: body except Exception: handler` — the exception text is discarded,
events emitted by the failed body remain in the trace. -/
def mtry (body : CmdM α) (handler : CmdM α) : CmdM α := fun tr =>
  match body tr with
  | (.ok a, tr') => (.ok a, tr')
  | (.error _, tr') => handler tr'

/-- Run a computation on the empty trace. -/
def CmdM.run (x : CmdM α) : Except String α × List Event := x []

/-- Classifier: a `git commit` invocation. -/
def isCommitEvent : Event → Bool
  | .git ("commit" :: _) => true
  | _ => false

/-- Classifier: a `git push` invocation (either variant). -/
def isPushEvent : Event → Bool
  | .git ("push" :: _) => true
  | _ => false

/-- Classifier: a completion-service call. -/
def isModelCallEvent : Event → Bool
  | .openaiCall _ _ _ _ => true
  | _ => false

/-- Classifier: a `git diff` invocation. -/
def isDiffEvent : Event → Bool
  | .git ("diff" :: _) => true
  | _ => false

/-! ## Repository accessor (`run_git` and friends) -/

/-- Outcome oracle for one git invocation, keyed by the exact argument lists
`server.py` can build (the two push variants are distinguished by arity so
that the mapping is well-defined for symbolic remote/branch names). -/
def gitDispatch (env : GitEnv) : List String → Except String String
  | ["rev-parse", "--show-toplevel"] => env.toplevel
  | ["status", "--porcelain"] => env.statusOut
  | ["rev-parse", "--abbrev-ref", "HEAD"] => env.headBranch
  | ["remote"] => env.remotesOut
  | ["rev-parse", "--abbrev-ref", "--symbolic-full-name", "@{u}"] => env.upstreamOut
  | "commit" :: _ => env.commitRes
  | ["push", _, _] => env.pushRes
  | ["push", _, _, _] => env.pushSetUpstreamRes
  | "diff" :: rest => if rest.contains "--staged" then env.diffStagedOut else env.diffFullOut
  | "add" :: _ => env.addRes
  | _ => .error "unmodelled git subcommand"

/-- `run_git(args, cwd)`: spawn the subprocess (recorded in the trace), strip
stdout on success, raise `git <args> failed: <stderr>` on non-zero exit. -/
def run_git (env : GitEnv) (args : List String) : CmdM String := fun tr =>
  let tr' := tr ++ [Event.git args]
  match gitDispatch env args with
  | .ok out => (.ok (pyStrip out), tr')
  | .error err =>
    (.error ("git " ++ String.intercalate " " args ++ " failed: " ++ pyStrip err), tr')

/-- `str(path).startswith(str(root))` — code-point level prefix test. -/
def strStartsWith (root p : String) : Bool := root.data.isPrefixOf p.data

/-- `check_allowed(path)`: no allow-list means unrestricted; otherwise the
*string form* of the resolved path must start with the string form of some
allowed root. -/
def check_allowed (cfg : BuddyConfig) (path : String) : Except String Unit :=
  if cfg.allowedRoots.isEmpty then .ok ()
  else if cfg.allowedRoots.any (fun root => strStartsWith root path) then .ok ()
  else .error ("Path " ++ path ++
    " is not in COMMIT_BUDDY_ALLOWED_ROOTS. Set COMMIT_BUDDY_ALLOWED_ROOTS to allow this repo.")

def exceptToCmd (x : Except String α) : CmdM α := fun tr =>
  match x with
  | .ok a => (.ok a, tr)
  | .error e => (.error e, tr)

/-- `ensure_repo(path)`: `Path(path).resolve()` is modelled as the given,
already-resolved path string; then the allow-list check and the
`rev-parse --show-toplevel` repository probe. -/
def ensure_repo (cfg : BuddyConfig) (env : GitEnv) (path : String) : CmdM String := do
  let _ ← exceptToCmd (check_allowed cfg path)
  let _ ← run_git env ["rev-parse", "--show-toplevel"]
  pure path

def get_current_branch (env : GitEnv) : CmdM String :=
  run_git env ["rev-parse", "--abbrev-ref", "HEAD"]

def has_remote (env : GitEnv) (remote : String) : CmdM Bool := do
  let out ← run_git env ["remote"]
  pure ((pySplitlines out).contains remote)

/-! ## Message generator -/

def systemPromptText : String :=
  "You are a senior engineer who writes excellent Conventional Commits."

/-- `{"Write it in " + language + "." if language else "Write in English."}` -/
def languageLine : Option String → String
  | some l => if l.isEmpty then "Write in English." else "Write it in " ++ l ++ "."
  | none => "Write in English."

def sp4 : String := "    "

/-- The dedented user prompt of `openai_generate_commit_message`, with the
diff and language directive interpolated before `textwrap.dedent` runs. -/
def userPromptFor (diff : String) (language : Option String) : String :=
  pyDedent ("\n" ++
    sp4 ++ "Generate a clear, **Conventional Commits** style commit message based on the unified git diff below.\n" ++
    "\n" ++
    sp4 ++ "Requirements:\n" ++
    sp4 ++ "- Start with a conventional type (feat, fix, docs, style, refactor, test, chore, perf, build, ci).\n" ++
    sp4 ++ "- A concise subject line (≤ 72 chars).\n" ++
    sp4 ++ "- Optional body lines with bullet points summarizing key changes.\n" ++
    sp4 ++ "- No code fences in the output. Plain text only.\n" ++
    sp4 ++ "- If the changes are trivial (whitespace, typos), use \"chore:\" or \"style:\" accordingly.\n" ++
    sp4 ++ "- " ++ languageLine language ++ "\n" ++
    "\n" ++
    sp4 ++ "Git diff:\n" ++
    sp4 ++ diff ++ "\n" ++
    sp4)

def tickChar : Char := Char.ofNat 96

/-- `msg.strip().strip("`").strip()`'s backtick-stripping step. -/
def stripTicks (s : String) : String :=
  ⟨((s.data.dropWhile (· == tickChar)).reverse.dropWhile (· == tickChar)).reverse⟩

/-- `openai_generate_commit_message(diff, language, model, temperature)`:
requires `OPENAI_API_KEY`, performs one completion call (no retry), and
post-processes the reply by stripping whitespace and surrounding backticks. -/
def openai_generate_commit_message (env : GitEnv) (diff : String)
    (language : Option String) (mdl : String) (temp : Int) : CmdM String :=
  if !env.apiKeySet then
    mthrow "OPENAI_API_KEY is not set. Cannot generate commit message."
  else do
    emit (.openaiCall systemPromptText (userPromptFor diff language) mdl temp)
    let msg := pyStrip env.openaiReply
    pure (pyStrip (stripTicks (pyStrip msg)))

/-! ## Tool: `get_git_diff` -/

def get_git_diff (cfg : BuddyConfig) (env : GitEnv) (path : String)
    (staged_only : Bool) (context_lines : Int) (filter_path : Option String)
    (max_chars : Option Int) : CmdM String := do
  let _repo ← ensure_repo cfg env path
  let args := if staged_only
    then ["diff", "--staged", "-U" ++ toString context_lines]
    else ["diff", "-U" ++ toString context_lines]
  let args := args ++ (match filter_path with
    | some f => if f.isEmpty then [] else [f]
    | none => [])
  let diff ← run_git env args
  if diff.isEmpty then
    pure "[commit-buddy] No changes detected (diff is empty)."
  else
    let diff := redact_secrets diff
    let limit := match max_chars with
      | some m => if 0 < m then m.toNat else cfg.maxDiffChars
      | none => cfg.maxDiffChars
    if limit < diff.length then pure (strTake diff limit ++ truncMarker) else pure diff

/-! ## Tool: `generate_commit_message`

The source's entry point runs the diff subprocess, *prints the raw diff*, and
returns the hardcoded placeholder; the redaction/truncation/OpenAI logic
below that point is commented out and the final `return message` is
unreachable, so it is absent from the embedding. -/

def generate_commit_message (cfg : BuddyConfig) (env : GitEnv) (path : String)
    (staged_only : Bool) (language : Option String) (mdl : Option String)
    (temperature : Option Int) : CmdM String := do
  let _repo ← ensure_repo cfg env path
  let args := if staged_only then ["diff", "--staged"] else ["diff"]
  let diff ← run_git env args
  if diff.isEmpty then
    pure "[commit-buddy] No changes detected; nothing to describe."
  else do
    emit (.printed diff)
    pure "testing commit message"

/-! ## Tool: `commit_and_push` -/

def sp8 : String := "        "

/-- The dry-run preview returned by `commit_and_push` (f-string then
`textwrap.dedent`, faithful to the 8-space indentation of the source). -/
def dryRunPreview (branch remote msg : String) : String :=
  pyDedent (sp8 ++ "[commit-buddy] DRY RUN\n" ++
    sp8 ++ "Branch: " ++ branch ++ "\n" ++
    sp8 ++ "Remote: " ++ remote ++ "\n" ++
    sp8 ++ "Message:\n" ++
    sp8 ++ msg ++ "\n" ++
    sp8 ++ "(No commit/push executed.)\n" ++
    sp8)

/-- The tail of `commit_and_push` from the `if not final_message:` check on:
message requirement, dry-run preview, commit, and the push decision with the
remote check and the upstream-read/push `try` + `--set-upstream` fallback.
(The Python function is straight-line; the code after message resolution is
shared by both resolution branches, hence this continuation.) -/
def commitPhase (env : GitEnv) (current_branch remote : String)
    (signoff push dry_run : Bool) (final_message : String) : CmdM String := do
  if final_message.isEmpty then
    mthrow "Commit message is required (generation disabled or failed)."
  else if dry_run then
    pure (dryRunPreview current_branch remote final_message)
  else do
    let commit_args := ["commit", "-m", final_message] ++
      (if signoff then ["--signoff"] else [])
    let _ ← run_git env commit_args
    if push then do
      let hr ← has_remote env remote
      if !hr then
        mthrow ("Remote '" ++ remote ++ "' not found. Add it with 'git remote add " ++
          remote ++ " <url>'.")
      else do
        mtry (do
            let _ ← run_git env ["rev-parse", "--abbrev-ref", "--symbolic-full-name", "@{u}"]
            let _ ← run_git env ["push", remote, current_branch]
            CmdM.pure ())
          (do
            let _ ← run_git env ["push", "--set-upstream", remote, current_branch]
            CmdM.pure ())
        pure ("[commit-buddy] Committed and pushed to " ++ remote ++ "/" ++ current_branch ++ ".")
    else
      pure ("[commit-buddy] Committed locally on " ++ current_branch ++ ". Push skipped.")

def commit_and_push (cfg : BuddyConfig) (env : GitEnv) (path : String)
    (message : String) (signoff : Bool) (branch : Option String) (remote : String)
    (push : Bool) (allow_main_push : Bool) (generate_if_empty : Bool)
    (staged_only_for_gen : Bool) (dry_run : Bool) (language : Option String)
    (mdl : Option String) (temperature : Option Int) : CmdM String := do
  let _repo ← ensure_repo cfg env path
  let status ← run_git env ["status", "--porcelain"]
  if status.isEmpty then
    pure "[commit-buddy] Nothing to commit."
  else do
    let current_branch ← (match branch with
      | some b => if b.isEmpty then get_current_branch env else CmdM.pure b
      | none => get_current_branch env)
    if push && !allow_main_push && (current_branch == "main" || current_branch == "master") then
      pure ("[commit-buddy] Push blocked: refusing to push directly to " ++ current_branch ++
        ". Set allow_main_push=true to override.")
    else do
      let final_message := pyStrip message
      if final_message.isEmpty && generate_if_empty then do
        let gargs := if staged_only_for_gen then ["diff", "--staged"] else ["diff"]
        let diff ← run_git env gargs
        if diff.isEmpty then
          pure "[commit-buddy] No changes detected for message generation."
        else do
          let diff := redact_secrets diff
          let diff := if cfg.maxDiffChars < diff.length
            then strTake diff cfg.maxDiffChars ++ truncMarker else diff
          let mdl' := match mdl with
            | some m => if m.isEmpty then cfg.defaultModel else m
            | none => cfg.defaultModel
          let temp' := match temperature with
            | some t => t
            | none => cfg.defaultTemperature
          let fm ← openai_generate_commit_message env diff language mdl' temp'
          commitPhase env current_branch remote signoff push dry_run fm
      else
        commitPhase env current_branch remote signoff push dry_run final_message

/-! ## Concrete instances used by witnesses and counterexamples -/

/-- A configuration with no allow-list and the source's defaults. -/
def cfg0 : BuddyConfig := ⟨[], 200000, "gpt-4o-mini", 0⟩

/-- A healthy repository oracle: non-empty status, branch `main`, a staged
diff containing a secret, remote `origin` present, upstream configured, and
every git command succeeding. -/
def envOk : GitEnv :=
  { toplevel := .ok "/repo"
    statusOut := .ok " M a.txt"
    headBranch := .ok "main"
    diffStagedOut := .ok "diff --git a b\n+password=hunter2"
    diffFullOut := .ok "full diff"
    remotesOut := .ok "origin"
    upstreamOut := .ok "origin/dev"
    commitRes := .ok "committed"
    pushRes := .ok ""
    pushSetUpstreamRes := .ok ""
    addRes := .ok ""
    apiKeySet := true
    openaiReply := "feat: add thing" }

/-! # Theorems

First, applied-form rewriting lemmas for the effect monad and the oracle
dispatch (the shallow embedding's "operational semantics"), then one theorem
(plus witness / counterexample where required) per claim. -/

@[simp] theorem CmdM.bind_apply (x : CmdM α) (f : α → CmdM β) (tr : List Event) :
    (x >>= f) tr =
      match x tr with
      | (.ok a, tr') => f a tr'
      | (.error e, tr') => (.error e, tr') := rfl

@[simp] theorem CmdM.pure_apply (a : α) (tr : List Event) :
    (Pure.pure a : CmdM α) tr = (.ok a, tr) := rfl

@[simp] theorem CmdM.purePrim_apply (a : α) (tr : List Event) :
    CmdM.pure a tr = (.ok a, tr) := rfl

@[simp] theorem emit_apply (e : Event) (tr : List Event) :
    emit e tr = (.ok (), tr ++ [e]) := rfl

@[simp] theorem mthrow_apply (msg : String) (tr : List Event) :
    (mthrow msg : CmdM α) tr = (.error msg, tr) := rfl

@[simp] theorem exceptToCmd_apply (x : Except String α) (tr : List Event) :
    exceptToCmd x tr =
      (match x with
       | .ok a => ((.ok a : Except String α), tr)
       | .error e => (.error e, tr)) := rfl

@[simp] theorem mtry_apply (body handler : CmdM α) (tr : List Event) :
    mtry body handler tr =
      (match body tr with
       | (.ok a, tr') => ((.ok a : Except String α), tr')
       | (.error _, tr') => handler tr') := rfl

@[simp] theorem run_git_apply (env : GitEnv) (args : List String) (tr : List Event) :
    run_git env args tr =
      (match gitDispatch env args with
       | .ok out => (.ok (pyStrip out), tr ++ [Event.git args])
       | .error err =>
         (.error ("git " ++ String.intercalate " " args ++ " failed: " ++ pyStrip err),
          tr ++ [Event.git args])) := rfl

@[simp] theorem gitDispatch_toplevel (env : GitEnv) :
    gitDispatch env ["rev-parse", "--show-toplevel"] = env.toplevel := rfl

@[simp] theorem gitDispatch_status (env : GitEnv) :
    gitDispatch env ["status", "--porcelain"] = env.statusOut := rfl

@[simp] theorem gitDispatch_head (env : GitEnv) :
    gitDispatch env ["rev-parse", "--abbrev-ref", "HEAD"] = env.headBranch := rfl

@[simp] theorem gitDispatch_remote (env : GitEnv) :
    gitDispatch env ["remote"] = env.remotesOut := rfl

@[simp] theorem gitDispatch_upstream (env : GitEnv) :
    gitDispatch env ["rev-parse", "--abbrev-ref", "--symbolic-full-name", "@{u}"] =
      env.upstreamOut := rfl

@[simp] theorem gitDispatch_commit (env : GitEnv) (m : String) :
    gitDispatch env ["commit", "-m", m] = env.commitRes := rfl

@[simp] theorem gitDispatch_commitSignoff (env : GitEnv) (m : String) :
    gitDispatch env ["commit", "-m", m, "--signoff"] = env.commitRes := rfl

@[simp] theorem gitDispatch_push (env : GitEnv) (r b : String) :
    gitDispatch env ["push", r, b] = env.pushRes := rfl

@[simp] theorem gitDispatch_pushSetUpstream (env : GitEnv) (r b : String) :
    gitDispatch env ["push", "--set-upstream", r, b] = env.pushSetUpstreamRes := rfl

@[simp] theorem gitDispatch_diffStaged (env : GitEnv) :
    gitDispatch env ["diff", "--staged"] = env.diffStagedOut := rfl

@[simp] theorem gitDispatch_diffFull (env : GitEnv) :
    gitDispatch env ["diff"] = env.diffFullOut := rfl

/-- C1: with `push=true`, `allow_main_push=false`, a non-empty porcelain
status and a resolved branch of `main` or `master` (whether supplied
explicitly or read from `rev-parse --abbrev-ref HEAD`), `commit_and_push`
returns the `Blocked` message and its whole event trace contains no
`git commit`, no `git push` (either variant), and no completion-service
call — the guard fires before message generation, commit, and push. -/
theorem commit_and_push_blocked_before_any_mutation
    (cfg : BuddyConfig) (tl s : String)
    (hbE d1 d2 rm up co po pso ad : Except String String) (key : Bool) (reply : String)
    (path message : String) (signoff : Bool) (branch : Option String) (remote : String)
    (generate_if_empty staged_only_for_gen dry_run : Bool)
    (language mdl : Option String) (temperature : Option Int) (b : String)
    (hallow : check_allowed cfg path = .ok ())
    (hs : (pyStrip s).isEmpty = false)
    (hbr : (branch = some b ∧ b.isEmpty = false) ∨
      ((branch = none ∨ branch = some "") ∧ ∃ hb, hbE = .ok hb ∧ pyStrip hb = b))
    (hmain : b = "main" ∨ b = "master") :
    let env : GitEnv := ⟨.ok tl, .ok s, hbE, d1, d2, rm, up, co, po, pso, ad, key, reply⟩
    let res := (commit_and_push cfg env path message signoff branch remote
      true false generate_if_empty staged_only_for_gen dry_run language mdl temperature).run
    res.1 = .ok ("[commit-buddy] Push blocked: refusing to push directly to " ++ b ++
      ". Set allow_main_push=true to override.") ∧
    res.2.all (fun e => !isCommitEvent e && !isPushEvent e && !isModelCallEvent e) = true := by
  intro env res
  rcases hbr with ⟨hbr1, hbr2⟩ | ⟨hbr1, hb, hbE_eq, hstrip⟩
  · subst hbr1
    rcases hmain with h | h <;> subst h <;>
      simp +decide [res, env, commit_and_push, ensure_repo, get_current_branch,
        CmdM.run, hallow, hs, isCommitEvent, isPushEvent, isModelCallEvent]
  · subst hbE_eq
    rcases hmain with h | h <;> subst h <;>
      rcases hbr1 with h1 | h1 <;> subst h1 <;>
      simp +decide [res, env, commit_and_push, ensure_repo, get_current_branch,
        CmdM.run, hallow, hs, hstrip, isCommitEvent, isPushEvent, isModelCallEvent]

/-- Witness for C1: concrete blocked invocation on branch `main`. -/
theorem commit_and_push_blocked_before_any_mutation_witness :
    (pyStrip " M a.txt").isEmpty = false ∧
    (let env : GitEnv := ⟨.ok "/repo", .ok " M a.txt", .ok "main",
       .ok "d1", .ok "d2", .ok "origin", .ok "origin/dev", .ok "c", .ok "p",
       .ok "ps", .ok "a", true, "feat: x"⟩
     let res := (commit_and_push cfg0 env "." "" false (some "main") "origin"
       true false true true false none none none).run
     res.1 = .ok ("[commit-buddy] Push blocked: refusing to push directly to " ++ "main" ++
       ". Set allow_main_push=true to override.") ∧
     res.2.all (fun e => !isCommitEvent e && !isPushEvent e && !isModelCallEvent e) = true) :=
  ⟨by decide,
   commit_and_push_blocked_before_any_mutation cfg0 "/repo" " M a.txt"
     (.ok "main") (.ok "d1") (.ok "d2") (.ok "origin") (.ok "origin/dev") (.ok "c")
     (.ok "p") (.ok "ps") (.ok "a") true "feat: x" "." "" false (some "main") "origin"
     true true false none none none "main" rfl (by decide)
     (Or.inl ⟨rfl, by decide⟩) (Or.inl rfl)⟩

/-- C9: `check_allowed` passes any path whose resolved string form begins
with the string form of some allowed root — the check is `str.startswith`,
not filesystem containment, so sibling directories such as `"<root>evil"`
are accepted too (see the witness). -/
theorem check_allowed_accepts_any_string_prefix
    (cfg : BuddyConfig) (r p : String)
    (hmem : r ∈ cfg.allowedRoots) (hpre : strStartsWith r p = true) :
    check_allowed cfg p = .ok () := by
  have hne : cfg.allowedRoots.isEmpty = false := by
    cases h : cfg.allowedRoots with
    | nil => rw [h] at hmem; cases hmem
    | cons a l => rfl
  have hany : (cfg.allowedRoots.any fun root => strStartsWith root p) = true :=
    List.any_eq_true.mpr ⟨r, hmem, hpre⟩
  simp [check_allowed, hne, hany]

/-- Witness for C9: root `/srv/repo`, sibling path `/srv/repoevil`. -/
theorem check_allowed_accepts_any_string_prefix_witness :
    "/srv/repo" ∈ (["/srv/repo"] : List String) ∧
    strStartsWith "/srv/repo" "/srv/repoevil" = true ∧
    check_allowed ⟨["/srv/repo"], 200000, "gpt-4o-mini", 0⟩ "/srv/repoevil" = .ok () :=
  ⟨by decide, by decide,
   check_allowed_accepts_any_string_prefix ⟨["/srv/repo"], 200000, "gpt-4o-mini", 0⟩
     "/srv/repo" "/srv/repoevil" (by decide) (by decide)⟩

/-- C3 counterexample: the claim "the output contains no substring matching
any rule's pattern after one application pass" is false — one pass over
`"password=x"` yields `"password=***"`, and the mask `"password=***"` itself
still matches rule 4's pattern `password\s*=\s*[^ \n]+`. -/
theorem redact_secrets_output_still_matches_a_rule :
    redact_secrets "password=x" = "password=***" ∧
    hasMatch patPassword (redact_secrets "password=x").data = true := by decide

/-- Instance check for the masking property: on a canonical matching
assignment for each of the five rules, one pass yields exactly the masked
placeholder. -/
theorem redact_secrets_masks_each_rule :
    redact_secrets "aws_secret_access_key=ABCDEFGHIJKLMNOPQRST" = "aws_secret_access_key=***" ∧
    redact_secrets "api_key=ABCDEFGHIJKLMNOP" = "api_key=***" ∧
    redact_secrets "authorization: Bearer abcdefghijklmnop" = "authorization: Bearer ***" ∧
    redact_secrets "password=hunter2" = "password=***" ∧
    redact_secrets "secret=hunter2" = "secret=***" := by decide

theorem runLen_le (p : Char → Bool) (s : List Char) : runLen p s ≤ s.length := by
  induction s with
  | nil => simp [runLen]
  | cons c cs ih => by_cases h : p c <;> simp [runLen, h] <;> omega

theorem tryDown_le (f : List Char → Option Nat) (s : List Char) (lo : Nat)
    (hf : ∀ t n, f t = some n → n ≤ t.length) :
    ∀ k v, k ≤ s.length → tryDown f s lo k = some v → v ≤ s.length := by
  intro k
  induction k with
  | zero =>
    intro v _ h
    by_cases hlo : lo = 0
    · simp only [tryDown, hlo, if_true] at h
      exact hf s v h
    · simp [tryDown, hlo] at h
  | succ k ih =>
    intro v hk h
    simp only [tryDown] at h
    by_cases hlt : k + 1 < lo
    · simp [hlt] at h
    · simp only [hlt, if_false] at h
      cases hfs : f (s.drop (k + 1)) with
      | some n =>
        rw [hfs] at h
        simp only [Option.some.injEq] at h
        have hn : n ≤ (s.drop (k + 1)).length := hf _ n hfs
        rw [List.length_drop] at hn
        omega
      | none =>
        rw [hfs] at h
        exact ih v (Nat.le_of_succ_le hk) h

theorem tryDown_pos (f : List Char → Option Nat) (s : List Char) (lo : Nat)
    (hlo : 1 ≤ lo) : ∀ k v, tryDown f s lo k = some v → 1 ≤ v := by
  intro k
  induction k with
  | zero =>
    intro v h
    have hlo' : lo ≠ 0 := by omega
    simp [tryDown, hlo'] at h
  | succ k ih =>
    intro v h
    simp only [tryDown] at h
    by_cases hlt : k + 1 < lo
    · simp [hlt] at h
    · simp only [hlt, if_false] at h
      cases hfs : f (s.drop (k + 1)) with
      | some n =>
        rw [hfs] at h
        simp only [Option.some.injEq] at h
        omega
      | none =>
        rw [hfs] at h
        exact ih v h

theorem matchItems_le (items : List RItem) : ∀ (s : List Char) (v : Nat),
    matchItems items s = some v → v ≤ s.length := by
  induction items with
  | nil =>
    intro s v h
    simp only [matchItems, Option.some.injEq] at h
    omega
  | cons it rest ih =>
    intro s v h
    simp only [matchItems] at h
    have hm : (match it.hi with
        | none => runLen it.cls s
        | some h => min (runLen it.cls s) h) ≤ s.length := by
      cases it.hi with
      | none => exact runLen_le it.cls s
      | some hh => exact le_trans (Nat.min_le_left _ _) (runLen_le it.cls s)
    exact tryDown_le (matchItems rest) s it.lo (fun t n ht => ih t n ht) _ v hm h

theorem matchItems_cons_pos (it : RItem) (rest : List RItem) (hlo : 1 ≤ it.lo) :
    ∀ (s : List Char) (v : Nat), matchItems (it :: rest) s = some v → 1 ≤ v := by
  intro s v h
  simp only [matchItems] at h
  exact tryDown_pos (matchItems rest) s it.lo hlo _ v h

theorem matchItems_pos_of_headLoPos (items : List RItem) (h : headLoPos items = true) :
    ∀ (s : List Char) (v : Nat), matchItems items s = some v → 1 ≤ v := by
  cases items with
  | nil => simp [headLoPos] at h
  | cons it rest =>
    simp only [headLoPos, decide_eq_true_eq] at h
    exact matchItems_cons_pos it rest h

theorem subAllGo_skip (r : List RItem) (rep : List Char) :
    ∀ (n : Nat) (cs : List Char), subAllGo r rep n cs = subAllGo r rep 0 (cs.drop n) := by
  intro n
  induction n with
  | zero => intro cs; rfl
  | succ n ih =>
    intro cs
    cases cs with
    | nil => rfl
    | cons c cs' =>
      simp only [subAllGo, List.drop_succ_cons]
      exact ih cs'

theorem subAll_maskedPass (r : List RItem) (rep : List Char)
    (hpos : ∀ (u : List Char) (v : Nat), matchItems r u = some v → 1 ≤ v) :
    ∀ s, MaskedPass r rep s (subAll r rep s) := by
  have key : ∀ (n : Nat) (s : List Char), s.length ≤ n →
      MaskedPass r rep s (subAll r rep s) := by
    intro n
    induction n with
    | zero =>
      intro s hs
      have : s = [] := List.eq_nil_of_length_eq_zero (Nat.le_zero.mp hs)
      subst this
      exact MaskedPass.nil
    | succ n ih =>
      intro s hs
      cases s with
      | nil => exact MaskedPass.nil
      | cons c cs =>
        cases h : matchItems r (c :: cs) with
        | none =>
          have hsub : subAll r rep (c :: cs) = c :: subAll r rep cs := by
            simp [subAll, subAllGo, h]
          rw [hsub]
          exact MaskedPass.keep c cs _ h
            (ih cs (by simpa using Nat.le_of_succ_le_succ hs))
        | some v =>
          have hv : 1 ≤ v := hpos _ _ h
          obtain ⟨m', rfl⟩ : ∃ m', v = m' + 1 := ⟨v - 1, by omega⟩
          have hle : m' + 1 ≤ (c :: cs).length := matchItems_le r (c :: cs) _ h
          have hsub : subAll r rep (c :: cs) =
              rep ++ subAll r rep ((c :: cs).drop (m' + 1)) := by
            simp only [subAll, subAllGo, h, List.drop_succ_cons]
            rw [subAllGo_skip]
          have hms : (c :: cs).take (m' + 1) ++ (c :: cs).drop (m' + 1) = c :: cs :=
            List.take_append_drop _ _
          have hmlen : ((c :: cs).take (m' + 1)).length = m' + 1 := by
            rw [List.length_take]
            omega
          have hmne : (c :: cs).take (m' + 1) ≠ [] := by
            intro hh
            rw [hh] at hmlen
            simp at hmlen
          have hmatch : matchItems r ((c :: cs).take (m' + 1) ++ (c :: cs).drop (m' + 1)) =
              some ((c :: cs).take (m' + 1)).length := by
            rw [hms, hmlen]
            exact h
          have ihs : MaskedPass r rep ((c :: cs).drop (m' + 1))
              (subAll r rep ((c :: cs).drop (m' + 1))) := by
            refine ih _ ?_
            rw [List.length_drop]
            simp only [List.length_cons] at hs hle ⊢
            omega
          rw [hsub]
          have hmk := MaskedPass.mask ((c :: cs).take (m' + 1)) ((c :: cs).drop (m' + 1))
            (subAll r rep ((c :: cs).drop (m' + 1))) hmne hmatch ihs
          rw [hms] at hmk
          exact hmk
  exact fun s => key s.length s (Nat.le_refl _)

/-- C3 amended (universal): for every input text, one application pass
consists of the five rule substitutions in order, and each rule's pass
satisfies `MaskedPass`: every character at whose position the rule matches is
consumed by a replaced match, each replaced segment is a genuine match of the
rule, and it is replaced by exactly the rule's fixed masked placeholder —
i.e. every matched secret assignment is masked. -/
theorem redact_secrets_masks_every_match (t : String) :
    ∃ s1 s2 s3 s4 s5 : List Char,
      MaskedPass patAwsSecret "aws_secret_access_key=***".data t.data s1 ∧
      MaskedPass patApiKey "api_key=***".data s1 s2 ∧
      MaskedPass patBearer "authorization: Bearer ***".data s2 s3 ∧
      MaskedPass patPassword "password=***".data s3 s4 ∧
      MaskedPass patSecret "secret=***".data s4 s5 ∧
      redact_secrets t = ⟨s5⟩ :=
  ⟨_, _, _, _, _,
   subAll_maskedPass _ _ (matchItems_pos_of_headLoPos _ (by decide)) t.data,
   subAll_maskedPass _ _ (matchItems_pos_of_headLoPos _ (by decide)) _,
   subAll_maskedPass _ _ (matchItems_pos_of_headLoPos _ (by decide)) _,
   subAll_maskedPass _ _ (matchItems_pos_of_headLoPos _ (by decide)) _,
   subAll_maskedPass _ _ (matchItems_pos_of_headLoPos _ (by decide)) _,
   rfl⟩

/-- C7 counterexample: `redact_secrets` is not idempotent.  In
`"aws_secret_access_key=ABCDEFGHIJKpassword = v"` rule 1 finds no match on
the first pass (the value run `ABCDEFGHIJKpassword` stops at the space after
19 characters, below the 20 minimum), but rule 4 rewrites the tail to
`password=***`, and since `=` belongs to rule 1's value class
`[A-Za-z0-9/+=]`, the second pass sees a 20-character run
`ABCDEFGHIJKpassword=` and rewrites again. -/
theorem redact_secrets_not_idempotent :
    redact_secrets (redact_secrets "aws_secret_access_key=ABCDEFGHIJKpassword = v") ≠
      redact_secrets "aws_secret_access_key=ABCDEFGHIJKpassword = v" := by decide

/-- C7 amended: `redact_secrets` is not idempotent in general (see the
counterexample), but re-applying it to each rule's own masked replacement
text is a no-op: all five replacement strings are fixed points. -/
theorem redact_secrets_fixes_masked_replacements :
    redact_secrets "aws_secret_access_key=***" = "aws_secret_access_key=***" ∧
    redact_secrets "api_key=***" = "api_key=***" ∧
    redact_secrets "authorization: Bearer ***" = "authorization: Bearer ***" ∧
    redact_secrets "password=***" = "password=***" ∧
    redact_secrets "secret=***" = "secret=***" := by decide

/-- C8: for any repository with a non-empty diff, `generate_commit_message`
returns the constant `"testing commit message"`.  The `language`, `mdl` and
`temperature` arguments, the API-key flag and the completion reply are all
universally quantified and absent from the result and trace: the entry point
neither calls the completion service nor checks the credential. -/
theorem generate_commit_message_returns_placeholder
    (cfg : BuddyConfig) (tl dS dF : String)
    (stE hbE rmE upE coE poE psoE adE : Except String String) (key : Bool) (reply : String)
    (path : String) (staged_only : Bool) (language mdl : Option String)
    (temperature : Option Int)
    (hallow : check_allowed cfg path = .ok ())
    (d : String) (hd : d = if staged_only then dS else dF)
    (hne : (pyStrip d).isEmpty = false) :
    let env : GitEnv := ⟨.ok tl, stE, hbE, .ok dS, .ok dF, rmE, upE, coE, poE, psoE, adE, key, reply⟩
    (generate_commit_message cfg env path staged_only language mdl temperature).run =
      (.ok "testing commit message",
       [Event.git ["rev-parse", "--show-toplevel"],
        Event.git (if staged_only then ["diff", "--staged"] else ["diff"]),
        Event.printed (pyStrip d)]) := by
  intro env
  cases staged_only <;>
    (simp only [if_true, if_false, Bool.false_eq_true, ite_true, ite_false] at hd;
     subst hd;
     simp [env, generate_commit_message, ensure_repo, CmdM.run, hallow, hne])

/-- Witness for C8: the placeholder is returned on a concrete staged diff. -/
theorem generate_commit_message_returns_placeholder_witness :
    check_allowed cfg0 "." = .ok () ∧
    (let env : GitEnv := ⟨.ok "/repo", .ok " M a.txt", .ok "main",
       .ok "diff --git a b\n+password=hunter2", .ok "full diff", .ok "origin",
       .ok "origin/dev", .ok "c", .ok "p", .ok "ps", .ok "a", true, "feat: x"⟩
     (generate_commit_message cfg0 env "." true none none none).run =
      (.ok "testing commit message",
       [Event.git ["rev-parse", "--show-toplevel"],
        Event.git (if true then ["diff", "--staged"] else ["diff"]),
        Event.printed (pyStrip "diff --git a b\n+password=hunter2")])) :=
  ⟨rfl,
   generate_commit_message_returns_placeholder cfg0 "/repo"
     "diff --git a b\n+password=hunter2" "full diff"
     (.ok " M a.txt") (.ok "main") (.ok "origin") (.ok "origin/dev") (.ok "c")
     (.ok "p") (.ok "ps") (.ok "a") true "feat: x" "." true none none none rfl
     "diff --git a b\n+password=hunter2" rfl (by decide)⟩

/-- C2 (code bug): the spec requires redaction to run before any diff
content leaves the process boundary, but `generate_commit_message` prints
the *raw* diff to standard output (`print(diff)`) and never redacts — the
redaction logic below the hardcoded return is commented out.  Evaluated at
the failing input (a staged diff containing `password=hunter2`), the trace
contains the unredacted text, which redaction would have masked. -/
theorem generate_commit_message_emits_raw_unredacted_diff :
    (generate_commit_message cfg0 envOk "." true none none none).run =
      (.ok "testing commit message",
       [Event.git ["rev-parse", "--show-toplevel"], Event.git ["diff", "--staged"],
        Event.printed "diff --git a b\n+password=hunter2"]) ∧
    redact_secrets "diff --git a b\n+password=hunter2" ≠
      "diff --git a b\n+password=hunter2" := by
  exact ⟨rfl, by decide⟩

/-- C10: with `dry_run=true`, a whitespace-only message,
`generate_if_empty=true` and a non-empty diff (and the push-safety gate not
firing, which is what lets the call reach the preview), `commit_and_push`
runs the diff subprocess and the completion-service call before returning
the dry-run preview; no commit or push subcommand is ever invoked, and the
credential requirement still applies: with the API key unset the call fails
instead of previewing. -/
theorem commit_and_push_dry_run_still_calls_model
    (cfg : BuddyConfig) (tl s b dS dF : String)
    (hbE rmE upE coE poE psoE adE : Except String String) (key : Bool) (reply : String)
    (path message : String) (signoff : Bool) (remote : String)
    (push allow_main_push staged_only_for_gen : Bool)
    (language mdl : Option String) (temperature : Option Int)
    (hallow : check_allowed cfg path = .ok ())
    (hs : (pyStrip s).isEmpty = false)
    (hbne : b.isEmpty = false)
    (hguard : ¬((push = true ∧ allow_main_push = false) ∧ (b = "main" ∨ b = "master")))
    (hmsg : (pyStrip message).isEmpty = true)
    (d : String) (hd : d = if staged_only_for_gen then dS else dF)
    (hne : (pyStrip d).isEmpty = false)
    (fm : String) (hfm : fm = pyStrip (stripTicks (pyStrip (pyStrip reply))))
    (hfmne : fm.isEmpty = false) :
    let env : GitEnv := ⟨.ok tl, .ok s, hbE, .ok dS, .ok dF, rmE, upE, coE, poE, psoE, adE, key, reply⟩
    let res := (commit_and_push cfg env path message signoff (some b) remote
      push allow_main_push true staged_only_for_gen true language mdl temperature).run
    res.2.all (fun e => !isCommitEvent e && !isPushEvent e) = true ∧
    (key = true →
      res.1 = .ok (dryRunPreview b remote fm) ∧
      res.2.any isModelCallEvent = true ∧ res.2.any isDiffEvent = true) ∧
    (key = false →
      res.1 = .error "OPENAI_API_KEY is not set. Cannot generate commit message.") := by
  intro env res
  subst hfm
  cases staged_only_for_gen <;>
    (simp only [if_true, if_false, Bool.false_eq_true, ite_true, ite_false] at hd;
     subst hd) <;>
  cases key <;>
    by_cases htr : cfg.maxDiffChars < (redact_secrets (pyStrip d)).length <;>
    simp [res, env, commit_and_push, commitPhase, ensure_repo, get_current_branch,
      openai_generate_commit_message, CmdM.run, hallow, hs, hbne, hguard, hmsg, hne,
      hfmne, htr, isCommitEvent, isPushEvent, isModelCallEvent, isDiffEvent]

/-- Witness for C10: concrete dry-run with generation on branch `dev`. -/
theorem commit_and_push_dry_run_still_calls_model_witness :
    (pyStrip "   ").isEmpty = true ∧
    (let env : GitEnv := ⟨.ok "/repo", .ok " M a.txt", .ok "main",
       .ok "diff --git a b\n+password=hunter2", .ok "full", .ok "origin",
       .ok "origin/dev", .ok "c", .ok "p", .ok "ps", .ok "a", true, "feat: add thing"⟩
     let res := (commit_and_push cfg0 env "." "   " false (some "dev") "origin"
       true false true true true none none none).run
     res.2.all (fun e => !isCommitEvent e && !isPushEvent e) = true ∧
     (true = true →
       res.1 = .ok (dryRunPreview "dev" "origin"
         (pyStrip (stripTicks (pyStrip (pyStrip "feat: add thing"))))) ∧
       res.2.any isModelCallEvent = true ∧ res.2.any isDiffEvent = true) ∧
     (true = false →
       res.1 = .error "OPENAI_API_KEY is not set. Cannot generate commit message.")) :=
  ⟨by decide,
   commit_and_push_dry_run_still_calls_model cfg0 "/repo" " M a.txt" "dev"
     "diff --git a b\n+password=hunter2" "full" (.ok "main") (.ok "origin")
     (.ok "origin/dev") (.ok "c") (.ok "p") (.ok "ps") (.ok "a") true "feat: add thing"
     "." "   " false "origin" true false true none none none rfl (by decide) (by decide)
     (by decide) (by decide) "diff --git a b\n+password=hunter2" rfl (by decide)
     (pyStrip (stripTicks (pyStrip (pyStrip "feat: add thing")))) rfl (by decide)⟩

@[simp] theorem gitDispatch_diffArgs (env : GitEnv) (rest : List String) :
    gitDispatch env ("diff" :: rest) =
      (if rest.contains "--staged" then env.diffStagedOut else env.diffFullOut) := rfl

/-- C4: when the redacted diff is strictly longer than the effective cap
(the caller-supplied `max_chars` when it is a positive integer, else the
configured `MAX_DIFF_CHARS`), `get_git_diff` returns a text of length
exactly `cap + length(marker)` that ends with the truncation marker. -/
theorem get_git_diff_truncates_to_cap
    (cfg : BuddyConfig) (tl raw : String)
    (stE hbE rmE upE coE poE psoE adE : Except String String) (key : Bool) (reply : String)
    (path : String) (staged_only : Bool) (context_lines : Int) (filter_path : Option String)
    (max_chars : Option Int)
    (hallow : check_allowed cfg path = .ok ())
    (hne : (pyStrip raw).isEmpty = false)
    (limit : Nat)
    (hlimit : limit = match max_chars with
      | some m => if 0 < m then m.toNat else cfg.maxDiffChars
      | none => cfg.maxDiffChars)
    (hlong : limit < (redact_secrets (pyStrip raw)).length) :
    let env : GitEnv := ⟨.ok tl, stE, hbE, .ok raw, .ok raw, rmE, upE, coE, poE, psoE, adE, key, reply⟩
    let res := (get_git_diff cfg env path staged_only context_lines filter_path max_chars).run
    ∃ out : String, res.1 = .ok out ∧
      out.length = limit + truncMarker.length ∧
      ∃ pre : List Char, out.data = pre ++ truncMarker.data := by
  intro env res
  refine ⟨strTake (redact_secrets (pyStrip raw)) limit ++ truncMarker, ?_, ?_,
    (redact_secrets (pyStrip raw)).data.take limit, rfl⟩
  · subst hlimit
    cases staged_only <;>
      simp [res, env, get_git_diff, ensure_repo, CmdM.run, hallow, hne, hlong]
  · show ((redact_secrets (pyStrip raw)).data.take limit ++ truncMarker.data).length =
      limit + truncMarker.length
    have hlong' : limit ≤ (redact_secrets (pyStrip raw)).data.length := Nat.le_of_lt hlong
    rw [List.length_append, List.length_take, Nat.min_eq_left hlong']
    rfl

/-- Witness for C4: caller cap 3 on an 8-character secret-free diff. -/
theorem get_git_diff_truncates_to_cap_witness :
    (3 : Nat) < (redact_secrets (pyStrip "abcdefgh")).length ∧
    (let env : GitEnv := ⟨.ok "/repo", .ok "s", .ok "main", .ok "abcdefgh", .ok "abcdefgh",
        .ok "origin", .ok "u", .ok "c", .ok "p", .ok "ps", .ok "a", true, "r"⟩
     let res := (get_git_diff cfg0 env "." true 3 none (some 3)).run
     ∃ out : String, res.1 = .ok out ∧
       out.length = 3 + truncMarker.length ∧
       ∃ pre : List Char, out.data = pre ++ truncMarker.data) :=
  ⟨by decide,
   get_git_diff_truncates_to_cap cfg0 "/repo" "abcdefgh" (.ok "s") (.ok "main")
     (.ok "origin") (.ok "u") (.ok "c") (.ok "p") (.ok "ps") (.ok "a") true "r" "."
     true 3 none (some 3) rfl (by decide) 3 rfl (by decide)⟩

/-- C6: with `push=true`, `dry_run=false`, an explicit non-empty message and a
remote that is not in `git remote`'s output, `commit_and_push` fails with the
`RemoteNotFound` error *after* the commit subcommand has run: the trace ends
with the commit invocation followed only by the read-only `git remote`
listing — no rollback command of any kind follows the commit. -/
theorem commit_and_push_remote_missing_fails_after_commit
    (cfg : BuddyConfig) (tl s rems co : String)
    (hbE d1 d2 upE poE psoE adE : Except String String) (key : Bool) (reply : String)
    (path message : String) (signoff : Bool) (branch : Option String) (remote : String)
    (allow_main_push generate_if_empty staged_only_for_gen : Bool)
    (language mdl : Option String) (temperature : Option Int) (b : String)
    (hallow : check_allowed cfg path = .ok ())
    (hs : (pyStrip s).isEmpty = false)
    (hbr : (branch = some b ∧ b.isEmpty = false) ∨
      ((branch = none ∨ branch = some "") ∧ ∃ hb, hbE = .ok hb ∧ pyStrip hb = b))
    (hguard : ¬(allow_main_push = false ∧ (b = "main" ∨ b = "master")))
    (hmsg : (pyStrip message).isEmpty = false)
    (hrem : remote ∉ pySplitlines (pyStrip rems)) :
    let env : GitEnv := ⟨.ok tl, .ok s, hbE, d1, d2, .ok rems, upE, .ok co, poE, psoE, adE, key, reply⟩
    let res := (commit_and_push cfg env path message signoff branch remote
      true allow_main_push generate_if_empty staged_only_for_gen false
      language mdl temperature).run
    res.1 = .error ("Remote '" ++ remote ++ "' not found. Add it with 'git remote add " ++
      remote ++ " <url>'.") ∧
    ∃ pre : List Event, res.2 = pre ++
      [Event.git (["commit", "-m", pyStrip message] ++ (if signoff then ["--signoff"] else [])),
       Event.git ["remote"]] := by
  intro env res
  rcases hbr with ⟨hbr1, hbr2⟩ | ⟨hbr1, hb, hbE_eq, hstrip⟩
  · subst hbr1
    refine ⟨?_, [Event.git ["rev-parse", "--show-toplevel"],
      Event.git ["status", "--porcelain"]], ?_⟩ <;>
      cases signoff <;>
      simp [res, env, commit_and_push, commitPhase, ensure_repo, get_current_branch,
        has_remote, CmdM.run, hallow, hs, hbr2, hguard, hmsg, hrem]
  · subst hbE_eq
    rcases hbr1 with h1 | h1 <;> subst h1 <;>
      (refine ⟨?_, [Event.git ["rev-parse", "--show-toplevel"],
        Event.git ["status", "--porcelain"],
        Event.git ["rev-parse", "--abbrev-ref", "HEAD"]], ?_⟩ <;>
       cases signoff <;>
       simp +decide [res, env, commit_and_push, commitPhase, ensure_repo, get_current_branch,
         has_remote, CmdM.run, hallow, hs, hstrip, hguard, hmsg, hrem])

/-- Witness for C6: remote `origin` absent (only `upstream` configured). -/
theorem commit_and_push_remote_missing_fails_after_commit_witness :
    (pyStrip "fix: x").isEmpty = false ∧
    (let env : GitEnv := ⟨.ok "/repo", .ok " M a.txt", .ok "main", .ok "d1", .ok "d2",
        .ok "upstream", .ok "u", .ok "committed", .ok "p", .ok "ps", .ok "a", true, "r"⟩
     let res := (commit_and_push cfg0 env "." "fix: x" false (some "dev") "origin"
       true false true true false none none none).run
     res.1 = .error ("Remote '" ++ "origin" ++ "' not found. Add it with 'git remote add " ++
       "origin" ++ " <url>'.") ∧
     ∃ pre : List Event, res.2 = pre ++
       [Event.git (["commit", "-m", pyStrip "fix: x"] ++ (if false then ["--signoff"] else [])),
        Event.git ["remote"]]) :=
  ⟨by decide,
   commit_and_push_remote_missing_fails_after_commit cfg0 "/repo" " M a.txt" "upstream"
     "committed" (.ok "main") (.ok "d1") (.ok "d2") (.ok "u") (.ok "p") (.ok "ps") (.ok "a")
     true "r" "." "fix: x" false (some "dev") "origin" false true true none none none "dev"
     rfl (by decide) (Or.inl ⟨rfl, by decide⟩) (by decide) (by decide) (by decide)⟩

/-- C5 counterexample: the upstream tracking-ref read *succeeds*, the normal
push fails, and yet the upstream-setting push variant runs and the failure of
the normal push is not surfaced — the call returns the success message.  This
refutes both "a failure of that normal push is surfaced as-is" and "the
upstream-setting push variant is used only when reading the upstream tracking
ref fails": the source's `try` block wraps the upstream read *and* the normal
push, so the `except` fallback also catches normal-push failures. -/
theorem commit_and_push_fallback_despite_upstream :
    (let env : GitEnv := ⟨.ok "/repo", .ok " M a.txt", .ok "main", .ok "d1", .ok "d2",
        .ok "origin", .ok "origin/dev", .ok "committed", .error "rejected", .ok "", .ok "a",
        true, "r"⟩
     let res := (commit_and_push cfg0 env "." "fix: x" false (some "dev") "origin"
       true false true true false none none none).run
     env.upstreamOut = .ok "origin/dev" ∧ env.pushRes = .error "rejected" ∧
     res.1 = .ok "[commit-buddy] Committed and pushed to origin/dev." ∧
     res.2.contains (Event.git ["push", "origin", "dev"]) = true ∧
     res.2.contains (Event.git ["push", "--set-upstream", "origin", "dev"]) = true) := by
  exact ⟨rfl, rfl, rfl, by decide, by decide⟩

/-- C5 amended: in the push phase the upstream-tracking-ref read and the
normal push are attempted inside one `try` block, so the upstream-setting
variant runs when *either* the upstream read *or* the normal push fails; a
normal-push failure is not surfaced as-is — the fallback's outcome replaces
it, and only a failure of the fallback push surfaces.  The exact trace in
each of the three cases shows the attempt-then-fallback is the only
automatic retry: `res.2.Nodup` states that no git invocation is ever issued
twice, and the upstream-setting push is the only command that ever follows a
failed one. -/
theorem commit_and_push_push_fallback_on_any_failure
    (cfg : BuddyConfig) (tl s rems co : String)
    (hbE d1 d2 adE upE poE psoE : Except String String) (key : Bool) (reply : String)
    (path message : String) (remote : String)
    (allow_main_push generate_if_empty staged_only_for_gen : Bool)
    (language mdl : Option String) (temperature : Option Int) (b : String)
    (hallow : check_allowed cfg path = .ok ())
    (hs : (pyStrip s).isEmpty = false)
    (hbne : b.isEmpty = false)
    (hguard : ¬(allow_main_push = false ∧ (b = "main" ∨ b = "master")))
    (hmsg : (pyStrip message).isEmpty = false)
    (hrem : remote ∈ pySplitlines (pyStrip rems)) :
    let env : GitEnv := ⟨.ok tl, .ok s, hbE, d1, d2, .ok rems, upE, .ok co, poE, psoE, adE, key, reply⟩
    let res := (commit_and_push cfg env path message false (some b) remote
      true allow_main_push generate_if_empty staged_only_for_gen false
      language mdl temperature).run
    let base : List Event := [Event.git ["rev-parse", "--show-toplevel"],
      Event.git ["status", "--porcelain"],
      Event.git ["commit", "-m", pyStrip message], Event.git ["remote"],
      Event.git ["rev-parse", "--abbrev-ref", "--symbolic-full-name", "@{u}"]]
    let pushedMsg := "[commit-buddy] Committed and pushed to " ++ remote ++ "/" ++ b ++ "."
    let fallbackRes : Except String String := match psoE with
      | .ok _ => .ok pushedMsg
      | .error e2 => .error ("git " ++
          String.intercalate " " ["push", "--set-upstream", remote, b] ++
          " failed: " ++ pyStrip e2)
    ((∀ up po, upE = .ok up → poE = .ok po →
        res = (.ok pushedMsg, base ++ [Event.git ["push", remote, b]])) ∧
     (∀ up pe, upE = .ok up → poE = .error pe →
        res = (fallbackRes,
          base ++ [Event.git ["push", remote, b],
                   Event.git ["push", "--set-upstream", remote, b]])) ∧
     (∀ ue, upE = .error ue →
        res = (fallbackRes, base ++ [Event.git ["push", "--set-upstream", remote, b]]))) ∧
    res.2.Nodup := by
  intro env res base pushedMsg fallbackRes
  refine ⟨⟨?_, ?_, ?_⟩, ?_⟩
  · intro up po hup hpo
    subst hup; subst hpo
    simp [res, env, base, pushedMsg, commit_and_push, commitPhase, ensure_repo,
      get_current_branch, has_remote, CmdM.run, hallow, hs, hbne, hguard, hmsg, hrem]
  · intro up pe hup hpe
    subst hup; subst hpe
    cases psoE <;>
      simp [res, env, base, pushedMsg, fallbackRes, commit_and_push, commitPhase,
        ensure_repo, get_current_branch, has_remote, CmdM.run, hallow, hs, hbne,
        hguard, hmsg, hrem]
  · intro ue hue
    subst hue
    cases psoE <;>
      simp [res, env, base, pushedMsg, fallbackRes, commit_and_push, commitPhase,
        ensure_repo, get_current_branch, has_remote, CmdM.run, hallow, hs, hbne,
        hguard, hmsg, hrem]
  · cases upE <;> cases poE <;> cases psoE <;>
      simp [res, env, commit_and_push, commitPhase, ensure_repo, get_current_branch,
        has_remote, CmdM.run, List.nodup_cons, hallow, hs, hbne, hguard, hmsg, hrem]

/-- Witness for C5 (amended): upstream read succeeds, normal push rejected,
fallback `--set-upstream` push succeeds. -/
theorem commit_and_push_push_fallback_on_any_failure_witness :
    (pyStrip "fix: x").isEmpty = false ∧
    (let env : GitEnv := ⟨.ok "/repo", .ok " M a.txt", .ok "main", .ok "d1", .ok "d2",
        .ok "origin", .ok "origin/dev", .ok "committed", .error "rejected", .ok "", .ok "a",
        true, "r"⟩
     let res := (commit_and_push cfg0 env "." "fix: x" false (some "dev") "origin"
       true false true true false none none none).run
     let base : List Event := [Event.git ["rev-parse", "--show-toplevel"],
       Event.git ["status", "--porcelain"],
       Event.git ["commit", "-m", pyStrip "fix: x"], Event.git ["remote"],
       Event.git ["rev-parse", "--abbrev-ref", "--symbolic-full-name", "@{u}"]]
     let pushedMsg := "[commit-buddy] Committed and pushed to " ++ "origin" ++ "/" ++ "dev" ++ "."
     let fallbackRes : Except String String := match (Except.ok "" : Except String String) with
       | .ok _ => .ok pushedMsg
       | .error e2 => .error ("git " ++
           String.intercalate " " ["push", "--set-upstream", "origin", "dev"] ++
           " failed: " ++ pyStrip e2)
     ((∀ up po, (Except.ok "origin/dev" : Except String String) = .ok up →
         (Except.error "rejected" : Except String String) = .ok po →
         res = (.ok pushedMsg, base ++ [Event.git ["push", "origin", "dev"]])) ∧
      (∀ up pe, (Except.ok "origin/dev" : Except String String) = .ok up →
         (Except.error "rejected" : Except String String) = .error pe →
         res = (fallbackRes,
           base ++ [Event.git ["push", "origin", "dev"],
                    Event.git ["push", "--set-upstream", "origin", "dev"]])) ∧
      (∀ ue, (Except.ok "origin/dev" : Except String String) = .error ue →
         res = (fallbackRes, base ++ [Event.git ["push", "--set-upstream", "origin", "dev"]]))) ∧
     res.2.Nodup) :=
  ⟨by decide,
   commit_and_push_push_fallback_on_any_failure cfg0 "/repo" " M a.txt" "origin" "committed"
     (.ok "main") (.ok "d1") (.ok "d2") (.ok "a") (.ok "origin/dev") (.error "rejected")
     (.ok "") true "r" "." "fix: x" "origin" false true true none none none "dev"
     rfl (by decide) (by decide) (by decide) (by decide) (by decide)⟩
